import Mathlib

/-!
# gorm-logged: shallow embedding

Embedding of the `builder` package (src/builder_query.go and the
transaction/trace file) of the `gorm-logged` repository.

The facade `Model` wraps a gorm handle.  We model the gorm handle `*gorm.DB`
as the ordered list of clause-building operations (`DBOp`) that have been
applied to it: each gorm clause method (`Where`, `Joins`, `Preload`, ...)
appends one record of the call it received.  A terminal operation produces an
`EngineCall`: the clause list at the moment the engine method fires, plus the
engine method itself (`EngOp`).  Terminal operations are parametric in the
error outcome of the underlying engine call (`Option EngErr`), and return the
facade-level error (`Option CommonErr`) together with the list of
error-severity log messages emitted (logrus `.Error` calls).

`logrus.Fields` is Go's `map[string]interface{}`, shared by reference between
facades; we model the reference semantics explicitly with a heap of maps
(`Heap`) and `Option MapRef` for the possibly-nil `logTrace` field, so that
in-place map insertion by a derived facade is observable through the parent's
reference, exactly as in Go.
-/

/-- Go `interface{}` values that flow through the builder (query arguments,
trace values).  `record` models a struct value as named fields, `list` a
slice. -/
inductive Val where
  | str : String → Val
  | int : Int → Val
  | bool : Bool → Val
  | list : List Val → Val
  | record : List (String × Val) → Val

/-- Models `pretty.Print`: an injective rendering used only for trace/log
values.  The rendering itself is irrelevant to every claim (trace values are
never read back programmatically), so it is modelled as the identity
embedding of the printed value. -/
def prettyP (v : Val) : Val := v

/-- One clause-building call recorded on the gorm handle, with the argument
list exactly as the gorm method received it (variadic arguments after
spreading, a passed-without-spread slice as a single `Val.list` element). -/
inductive DBOp where
  | preloadOp (field : String) (received : List Val)
  | whereOp (query : Val) (received : List Val)
  | notOp (query : Val) (received : List Val)
  | havingOp (query : Val) (received : List Val)
  | selectOp (query : Val) (received : List Val)
  | joinsOp (query : String) (received : List Val)
  | orderOp (value : Val)
  | limitOp (n : Int)
  | offsetOp (n : Int)
  | setOp (name : String) (value : Val)
  | unscopedOp
  | modelOp (value : Val)
  | groupOp (name : String)
  | omitOp (value : List String)

/-- The gorm handle `*gorm.DB`, modelled as the clause calls applied so far. -/
abbrev GormDB := List DBOp

/-- Errors produced by the underlying engine.  `wrapped` models Go error
wrapping (traversed by `errors.Is`); `recordNotFound` is
`gorm.ErrRecordNotFound`; `txDone` is `sql.ErrTxDone`; `other` is any other
engine error. -/
inductive EngErr where
  | recordNotFound
  | txDone
  | wrapped (e : EngErr)
  | other (code : Nat)
  deriving DecidableEq, Repr

/-- `errors.Is(err, gorm.ErrRecordNotFound)` for a non-nil `err`. -/
def EngErr.isRecordNotFound : EngErr → Bool
  | .recordNotFound => true
  | .wrapped e => e.isRecordNotFound
  | _ => false

/-- `errors.Is(err, sql.ErrTxDone)` for a non-nil `err`. -/
def EngErr.isTxDone : EngErr → Bool
  | .txDone => true
  | .wrapped e => e.isTxDone
  | _ => false

/-- The two sentinel errors exposed to callers (`common.ErrInternal`,
`common.ErrNotFound`). -/
inductive CommonErr where
  | errInternal
  | errNotFound
  deriving DecidableEq, Repr

/-- `logrus.Fields` content: one Go map, as an association list with unique
keys (insertion replaces an existing key's value in place, otherwise
appends). -/
abbrev Fields := List (String × Val)

/-- `trace[k] = v` on a Go map: replace the value at `k` if present,
otherwise add the binding. -/
def Fields.insertF (f : Fields) (k : String) (v : Val) : Fields :=
  if f.any (fun p => p.1 = k) then
    f.map (fun p => if p.1 = k then (k, v) else p)
  else
    f ++ [(k, v)]

/-- Whether key `k` is bound: the `_, ok := trace[k]` test. -/
def Fields.hasKey (f : Fields) (k : String) : Bool :=
  f.any (fun p => p.1 = k)

/-- Lookup of key `k` (Go map read). -/
def Fields.lookupF (f : Fields) (k : String) : Option Val :=
  (f.find? (fun p => p.1 = k)).map (fun p => p.2)

/-- A reference to a `logrus.Fields` map (Go map header / pointer). -/
abbrev MapRef := Nat

/-- The store of all allocated `logrus.Fields` maps; references index it. -/
structure Heap where
  maps : List Fields

/-- Dereference a map. -/
def Heap.get (h : Heap) (r : MapRef) : Fields := h.maps.getD r []

/-- In-place update of the map behind reference `r`. -/
def Heap.setH (h : Heap) (r : MapRef) (f : Fields) : Heap := ⟨h.maps.set r f⟩

/-- `make(logrus.Fields)`: allocate a fresh empty map. -/
def Heap.alloc (h : Heap) : MapRef × Heap := (h.maps.length, ⟨h.maps ++ [[]]⟩)

/-- One pending preload directive: association field name plus extra
conditions, as stored in `Model.preloads`. -/
structure PreloadDir where
  field : String
  conditions : List Val

/-- The facade `builder.Model`: gorm handle, possibly-nil shared trace map
reference, and the ordered pending-preload queue. -/
structure Model where
  db : GormDB
  logTrace : Option MapRef
  preloads : List PreloadDir

/-- `initLogTrace`: return the existing map reference, or allocate a fresh
empty map when the trace is nil. -/
def initLogTrace (trace : Option MapRef) (h : Heap) : MapRef × Heap :=
  match trace with
  | none => h.alloc
  | some r => (r, h)


mutual

/-- Zero-value test: `reflect.DeepEqual(filter, reflect.Zero(typeOf filter))`.
A string is zero iff empty, an integer iff 0, a bool iff false, a struct iff
every field is zero; the embedding does not distinguish a nil slice from an
empty one. -/
def Val.isZero : Val → Bool
  | .str s => s == ""
  | .int n => n == 0
  | .bool b => b == false
  | .list l => l.isEmpty
  | .record fs => Val.fieldsZero fs

/-- All struct fields are zero (recursive part of `Val.isZero`). -/
def Val.fieldsZero : List (String × Val) → Bool
  | [] => true
  | p :: rest => Val.isZero p.2 && Val.fieldsZero rest

end

/-- The suffix-scanning loop body: starting at index `i`, return the first
index whose key `pre ++ toString i` is absent.  The Go loop is unbounded;
since the map holds only `tr.length` keys, the loop inspects at most
`tr.length + 1` candidate keys before finding an absent one, so the `fuel`
passed by `firstUnused` never runs out. -/
def scanUnused (tr : Fields) (pre : String) : Nat → Nat → Nat
  | i, 0 => i
  | i, fuel + 1 =>
    if tr.hasKey (pre ++ toString i) then scanUnused tr pre (i + 1) fuel else i

/-- The `var i int; for { if _, ok := trace[pre+strconv.Itoa(i)]; !ok
{ break }; i++ }` scan of `Joins`, `Set` and `Where`. -/
def firstUnused (tr : Fields) (pre : String) : Nat :=
  scanUnused tr pre 0 (tr.length + 1)

/-- `Model.Preload` (builder_query.go:103): records the directive in the
trace and appends it to the pending-preload queue; the gorm handle is left
untouched — no engine call happens at configuration time. -/
def Model.Preload (m : Model) (column : String) (conditions : List Val)
    (h : Heap) : Model × Heap :=
  let (r, h) := initLogTrace m.logTrace h
  let tr := (h.get r).insertF ("preloadColumn-" ++ column) (Val.str column)
  let tr := if conditions.length > 0 then
      tr.insertF ("preloadConditions-" ++ column) (Val.list conditions)
    else tr
  let h := h.setH r tr
  ({ db := m.db, logTrace := some r,
     preloads := m.preloads ++ [⟨column, conditions⟩] }, h)

/-- `Model.Unscoped` (builder_query.go:138).  Note the source stores
`logTrace: m.logTrace` in the new facade, not the (possibly freshly
allocated) `trace` it just wrote `unscoped` into. -/
def Model.Unscoped (m : Model) (h : Heap) : Model × Heap :=
  let (r, h) := initLogTrace m.logTrace h
  let h := h.setH r ((h.get r).insertF "unscoped" (Val.bool true))
  ({ db := m.db ++ [DBOp.unscopedOp], logTrace := m.logTrace,
     preloads := m.preloads }, h)

/-- `Model.Select` (builder_query.go:152): fixed trace keys `selectQuery` /
`selectArgs`, engine call `db.Select(query, args...)` with args spread. -/
def Model.Select (m : Model) (query : Val) (args : List Val)
    (h : Heap) : Model × Heap :=
  let (r, h) := initLogTrace m.logTrace h
  let tr := (h.get r).insertF "selectQuery" query
  let tr := if args.length > 0 then
      tr.insertF "selectArgs" (prettyP (Val.list args))
    else tr
  let h := h.setH r tr
  ({ db := m.db ++ [DBOp.selectOp query args], logTrace := some r,
     preloads := m.preloads }, h)

/-- `Model.Limit` (builder_query.go:169). -/
def Model.Limit (m : Model) (limit : Int) (h : Heap) : Model × Heap :=
  let (r, h) := initLogTrace m.logTrace h
  let h := h.setH r ((h.get r).insertF "limit" (Val.int limit))
  ({ db := m.db ++ [DBOp.limitOp limit], logTrace := some r,
     preloads := m.preloads }, h)

/-- `Model.Offset` (builder_query.go:176). -/
def Model.Offset (m : Model) (offset : Int) (h : Heap) : Model × Heap :=
  let (r, h) := initLogTrace m.logTrace h
  let h := h.setH r ((h.get r).insertF "offset" (Val.int offset))
  ({ db := m.db ++ [DBOp.offsetOp offset], logTrace := some r,
     preloads := m.preloads }, h)

/-- `Model.Order` (builder_query.go:183). -/
def Model.Order (m : Model) (value : Val) (h : Heap) : Model × Heap :=
  let (r, h) := initLogTrace m.logTrace h
  let h := h.setH r ((h.get r).insertF "order" (prettyP value))
  ({ db := m.db ++ [DBOp.orderOp value], logTrace := some r,
     preloads := m.preloads }, h)

/-- `Model.Joins` (builder_query.go:190): indexed trace keys
`joinsQuery<i>` / `joinsArgs<i>`; the engine call is
`db.Joins(query, args)` — the `args` slice is passed as ONE variadic
element, not spread, so the engine receives a single slice value. -/
def Model.Joins (m : Model) (query : String) (args : List Val)
    (h : Heap) : Model × Heap :=
  let (r, h) := initLogTrace m.logTrace h
  let tr := h.get r
  let i := firstUnused tr "joinsQuery"
  let tr := tr.insertF ("joinsQuery" ++ toString i) (Val.str query)
  let tr := if args.length > 0 then
      tr.insertF ("joinsArgs" ++ toString i) (prettyP (Val.list args))
    else tr
  let h := h.setH r tr
  ({ db := m.db ++ [DBOp.joinsOp query [Val.list args]], logTrace := some r,
     preloads := m.preloads }, h)

/-- `Model.Set` (builder_query.go:206): indexed trace keys `setName<i>` /
`setValue<i>`. -/
def Model.Set (m : Model) (name : String) (value : Val)
    (h : Heap) : Model × Heap :=
  let (r, h) := initLogTrace m.logTrace h
  let tr := h.get r
  let i := firstUnused tr "setName"
  let tr := tr.insertF ("setName" ++ toString i) (Val.str name)
  let tr := tr.insertF ("setValue" ++ toString i) value
  let h := h.setH r tr
  ({ db := m.db ++ [DBOp.setOp name value], logTrace := some r,
     preloads := m.preloads }, h)

/-- `Model.Where` (builder_query.go:391): indexed trace keys
`whereQuery<i>` / `whereArgs<i>`; engine call `db.Where(query, args...)`
with args spread. -/
def Model.Where (m : Model) (query : Val) (args : List Val)
    (h : Heap) : Model × Heap :=
  let (r, h) := initLogTrace m.logTrace h
  let tr := h.get r
  let i := firstUnused tr "whereQuery"
  let tr := tr.insertF ("whereQuery" ++ toString i) (prettyP query)
  let tr := if args.length > 0 then
      tr.insertF ("whereArgs" ++ toString i) (prettyP (Val.list args))
    else tr
  let h := h.setH r tr
  ({ db := m.db ++ [DBOp.whereOp query args], logTrace := some r,
     preloads := m.preloads }, h)

/-- `Model.Not` (builder_query.go:420): fixed trace keys. -/
def Model.Not (m : Model) (query : Val) (args : List Val)
    (h : Heap) : Model × Heap :=
  let (r, h) := initLogTrace m.logTrace h
  let tr := (h.get r).insertF "notQuery" (prettyP query)
  let tr := if args.length > 0 then tr.insertF "notArgs" (Val.list args) else tr
  let h := h.setH r tr
  ({ db := m.db ++ [DBOp.notOp query args], logTrace := some r,
     preloads := m.preloads }, h)

/-- `Model.Group` (builder_query.go:430). -/
def Model.Group (m : Model) (name : String) (h : Heap) : Model × Heap :=
  let (r, h) := initLogTrace m.logTrace h
  let h := h.setH r ((h.get r).insertF "groupName" (Val.str name))
  ({ db := m.db ++ [DBOp.groupOp name], logTrace := some r,
     preloads := m.preloads }, h)

/-- `Model.Having` (builder_query.go:437): fixed trace keys. -/
def Model.Having (m : Model) (query : Val) (args : List Val)
    (h : Heap) : Model × Heap :=
  let (r, h) := initLogTrace m.logTrace h
  let tr := (h.get r).insertF "havingQuery" query
  let tr := if args.length > 0 then tr.insertF "havingArgs" (Val.list args) else tr
  let h := h.setH r tr
  ({ db := m.db ++ [DBOp.havingOp query args], logTrace := some r,
     preloads := m.preloads }, h)

/-- `Model.Omit` (builder_query.go:356). -/
def Model.Omit (m : Model) (value : List String) (h : Heap) : Model × Heap :=
  let (r, h) := initLogTrace m.logTrace h
  let h := h.setH r ((h.get r).insertF "omit" (Val.list (value.map Val.str)))
  ({ db := m.db ++ [DBOp.omitOp value], logTrace := some r,
     preloads := m.preloads }, h)

/-- `Model.applyPreloads` (builder_query.go:121): recursively pop the first
pending directive, apply it to the gorm handle (conditions spread), and
recurse on the rest; on an empty queue return a facade with the same handle
and trace and no preloads. -/
def Model.applyPreloads (m : Model) : Model :=
  match hp : m.preloads with
  | [] => { db := m.db, logTrace := m.logTrace, preloads := [] }
  | p :: rest =>
      Model.applyPreloads
        { db := m.db ++ [DBOp.preloadOp p.field p.conditions],
          logTrace := m.logTrace, preloads := rest }
termination_by m.preloads.length
decreasing_by simp only [hp, List.length_cons]; omega

/-- The engine method a terminal operation invokes, with its direct
arguments (destination pointers carry no control-flow information and are
omitted). -/
inductive EngOp where
  | pluckE (column : String)
  | firstE (conds : List Val)
  | lastE (conds : List Val)
  | takeE (conds : List Val)
  | findE (conds : List Val)
  | scanE
  | createE (value : Val)
  | saveE (value : Val)
  | updatesE (attrs : Val)
  | deleteE (value : Val) (conds : List Val)
  | countE
  | execE (sql : String) (values : List Val)
  | findInBatchesE (batchSize : Int)

/-- The one engine invocation a terminal operation performs: the clause list
of the gorm handle at the moment the engine method fires, and the method
itself. -/
structure EngineCall where
  db : GormDB
  op : EngOp

/-- Result of a terminal operation: the error returned to the caller, the
error-severity log messages emitted, and the engine call made. -/
abbrev TermResult := Option CommonErr × List String × EngineCall

/-- `Model.Pluck` (builder_query.go:226): preloads applied, any engine error
is logged and replaced by `ErrInternal`. -/
def Model.Pluck (m : Model) (column : String) (engErr : Option EngErr) :
    TermResult :=
  let call : EngineCall := ⟨(m.applyPreloads).db, EngOp.pluckE column⟩
  match engErr with
  | none => (none, [], call)
  | some _ => (some .errInternal, ["can't pluck object from the database"], call)

/-- `Model.First` (builder_query.go:240): preloads applied; a (possibly
wrapped) `gorm.ErrRecordNotFound` becomes `ErrNotFound` without logging; any
other engine error is logged and becomes `ErrInternal`. -/
def Model.First (m : Model) (whereArgs : List Val) (engErr : Option EngErr) :
    TermResult :=
  let call : EngineCall := ⟨(m.applyPreloads).db, EngOp.firstE whereArgs⟩
  match engErr with
  | none => (none, [], call)
  | some e =>
    if e.isRecordNotFound then (some .errNotFound, [], call)
    else (some .errInternal, ["can't get first object from the database"], call)

/-- `Model.Last` (builder_query.go:260): same shape as `First`. -/
def Model.Last (m : Model) (whereArgs : List Val) (engErr : Option EngErr) :
    TermResult :=
  let call : EngineCall := ⟨(m.applyPreloads).db, EngOp.lastE whereArgs⟩
  match engErr with
  | none => (none, [], call)
  | some e =>
    if e.isRecordNotFound then (some .errNotFound, [], call)
    else (some .errInternal, ["can't get last object from the database"], call)

/-- `Model.Take` (builder_query.go:280): same shape as `First`. -/
def Model.Take (m : Model) (conds : List Val) (engErr : Option EngErr) :
    TermResult :=
  let call : EngineCall := ⟨(m.applyPreloads).db, EngOp.takeE conds⟩
  match engErr with
  | none => (none, [], call)
  | some e =>
    if e.isRecordNotFound then (some .errNotFound, [], call)
    else (some .errInternal, ["can't take object from the database"], call)

/-- `Model.Find` (builder_query.go:301): preloads applied; EVERY non-nil
engine error — record-not-found included — is logged and becomes
`ErrInternal` (no not-found branch in the source). -/
def Model.Find (m : Model) (whereArgs : List Val) (engErr : Option EngErr) :
    TermResult :=
  let call : EngineCall := ⟨(m.applyPreloads).db, EngOp.findE whereArgs⟩
  match engErr with
  | none => (none, [], call)
  | some _ => (some .errInternal, ["can't find from the database"], call)

/-- `Model.Scan` (builder_query.go:318). -/
def Model.Scan (m : Model) (engErr : Option EngErr) : TermResult :=
  let call : EngineCall := ⟨(m.applyPreloads).db, EngOp.scanE⟩
  match engErr with
  | none => (none, [], call)
  | some _ => (some .errInternal, ["can't scan from the database"], call)

/-- `Model.Create` (builder_query.go:331). -/
def Model.Create (m : Model) (value : Val) (engErr : Option EngErr) :
    TermResult :=
  let call : EngineCall := ⟨(m.applyPreloads).db, EngOp.createE value⟩
  match engErr with
  | none => (none, [], call)
  | some _ => (some .errInternal, ["can't create value in database"], call)

/-- `Model.Save` (builder_query.go:344). -/
def Model.Save (m : Model) (value : Val) (engErr : Option EngErr) :
    TermResult :=
  let call : EngineCall := ⟨(m.applyPreloads).db, EngOp.saveE value⟩
  match engErr with
  | none => (none, [], call)
  | some _ => (some .errInternal, ["can't save object in a database"], call)

/-- `Model.Updates` (builder_query.go:363). -/
def Model.Updates (m : Model) (attrs : Val) (engErr : Option EngErr) :
    TermResult :=
  let call : EngineCall := ⟨(m.applyPreloads).db, EngOp.updatesE attrs⟩
  match engErr with
  | none => (none, [], call)
  | some _ => (some .errInternal, ["can't update object in database"], call)

/-- `Model.Delete` (builder_query.go:375). -/
def Model.Delete (m : Model) (value : Val) (whereArgs : List Val)
    (engErr : Option EngErr) : TermResult :=
  let call : EngineCall := ⟨(m.applyPreloads).db, EngOp.deleteE value whereArgs⟩
  match engErr with
  | none => (none, [], call)
  | some _ => (some .errInternal, ["can't delete object from DB"], call)

/-- `Model.Count` (builder_query.go:408): the engine call is made on `m.db`
DIRECTLY — the source invokes `m.db.Count(&c)` without `applyPreloads()`.
`c` is the count the engine writes into `&c` on success. -/
def Model.Count (m : Model) (c : Int) (engErr : Option EngErr) :
    (Int × Option CommonErr) × List String × EngineCall :=
  let call : EngineCall := ⟨m.db, EngOp.countE⟩
  match engErr with
  | none => ((c, none), [], call)
  | some _ => ((0, some .errInternal), ["can't count objects in DB"], call)

/-- `Model.exec` (builder_query.go:446). -/
def Model.exec (m : Model) (sql : String) (values : List Val)
    (engErr : Option EngErr) : TermResult :=
  let call : EngineCall := ⟨(m.applyPreloads).db, EngOp.execE sql values⟩
  match engErr with
  | none => (none, [], call)
  | some _ => (some .errInternal, ["can't exec sql in DB"], call)

/-- `Model.BatchFind` (builder_query.go:471): preloads applied once up
front, batching delegated to the engine.  The per-batch callback (which
receives the original facade `m`) does not affect the error path and is
omitted. -/
def Model.BatchFind (m : Model) (batchSize : Int) (engErr : Option EngErr) :
    TermResult :=
  let call : EngineCall := ⟨(m.applyPreloads).db, EngOp.findInBatchesE batchSize⟩
  match engErr with
  | none => (none, [], call)
  | some _ => (some .errInternal, ["can't find from the database"], call)

/-- `Model.UpdateByFilter` (builder_query.go:488): a zero-value filter is
rejected — one error log, `ErrInternal`, and NO engine call; otherwise the
chain `applyPreloads().db.Model(filter).Where(filter).Updates(values)`
fires, with the usual error handling. -/
def Model.UpdateByFilter (m : Model) (filter : Val) (values : Val)
    (engErr : Option EngErr) :
    Option CommonErr × List String × Option EngineCall :=
  if filter.isZero then
    (some .errInternal, ["queryBuilder.UpdateByFilter called for empty filter"],
     none)
  else
    let call : EngineCall :=
      ⟨(m.applyPreloads).db ++ [DBOp.modelOp filter, DBOp.whereOp filter []],
       EngOp.updatesE values⟩
    match engErr with
    | none => (none, [], some call)
    | some _ =>
      (some .errInternal, ["can't update object in database"], some call)

/-- `Model.Commit` (transaction file): delegates, logs and returns
`ErrInternal` on failure. -/
def Model.Commit (m : Model) (commitErr : Option EngErr) :
    Option CommonErr × List String :=
  match commitErr with
  | none => (none, [])
  | some _ => (some .errInternal, ["can't commit transaction"])

/-- `Model.RollbackWithError` (transaction file): the inner
`if err := m.db.Rollback().Error; err != nil` shadows the parameter, so the
ORIGINAL `e` is returned in every case; a rollback failure is only logged. -/
def Model.RollbackWithError (m : Model) (e : Option EngErr)
    (rollbackErr : Option EngErr) : Option EngErr × List String :=
  match rollbackErr with
  | none => (e, [])
  | some _ => (e, ["can't rollback transaction"])

/-- `Model.RollBack` (transaction file): void; a nil rollback error or a
(possibly wrapped) `sql.ErrTxDone` produces no log, any other rollback
error produces exactly one error log. -/
def Model.RollBack (m : Model) (rollbackErr : Option EngErr) : List String :=
  match rollbackErr with
  | none => []
  | some e => if e.isTxDone then [] else ["can't rollback transaction"]

/-- One call-stack frame, as in `common.Frame`. -/
structure Frame where
  function : String
  file : String
  line : Nat
  deriving DecidableEq, Repr

/-- Whether `pat` occurs at the head of the character list. -/
def hasLeading : List Char → List Char → Bool
  | [], _ => true
  | _ :: _, [] => false
  | a :: as, b :: bs => a == b && hasLeading as bs

/-- Whether `pat` occurs contiguously anywhere in the character list. -/
def occursIn (pat : List Char) : List Char → Bool
  | [] => pat.isEmpty
  | c :: rest => hasLeading pat (c :: rest) || occursIn pat rest

/-- `strings.Contains(s, "myProject")`: the project-namespace test of
`common.GetFrames` (`projectName` constant), as substring occurrence over
the character sequence. -/
def containsProject (s : String) : Bool := occursIn "myProject".data s.data

/-- `common.GetFrames`.  The ambient call stack is passed explicitly,
innermost frame first; during the capture, frame 0 is `runtime.Callers`
itself and frame 1 is `GetFrames` itself, so `runtime.Callers(2, pcs)` with
its 99-entry buffer records `(stack.drop 2).take 99` — the recording starts
at GetFrames' DIRECT caller.  The loop then copies frames while the function
name contains the project name, breaking at the first that does not
(`n = 0` yields the empty result, as does `takeWhile` on `[]`). -/
def GetFrames (stack : List Frame) : List Frame :=
  ((stack.drop 2).take 99).takeWhile (fun f => containsProject f.function)

/-- The collector as the claim describes it: starting TWO frames above the
collector itself (skipping its own frame and its caller's frame), then the
contiguous run of project-namespace frames.  Defined only to compare against
`GetFrames`. -/
def claimGetFrames (stack : List Frame) : List Frame :=
  (stack.drop 3).takeWhile (fun f => containsProject f.function)

/-- The clause records that draining the preload queue appends. -/
def preloadOps (pre : List PreloadDir) : GormDB :=
  pre.map (fun p => DBOp.preloadOp p.field p.conditions)

theorem applyPreloads_eq (db : GormDB) (lt : Option MapRef)
    (pre : List PreloadDir) :
    Model.applyPreloads ⟨db, lt, pre⟩ = ⟨db ++ preloadOps pre, lt, []⟩ := by
  induction pre generalizing db with
  | nil => simp [Model.applyPreloads, preloadOps]
  | cons p rest ih =>
      rw [Model.applyPreloads]
      simp only [preloadOps, List.map_cons] at ih ⊢
      rw [ih, List.append_assoc]
      rfl

theorem Model.applyPreloads_db (m : Model) :
    (m.applyPreloads).db = m.db ++ preloadOps m.preloads := by
  obtain ⟨db, lt, pre⟩ := m
  rw [applyPreloads_eq]

theorem Model.applyPreloads_logTrace (m : Model) :
    (m.applyPreloads).logTrace = m.logTrace := by
  obtain ⟨db, lt, pre⟩ := m
  rw [applyPreloads_eq]

theorem Model.applyPreloads_preloads (m : Model) :
    (m.applyPreloads).preloads = [] := by
  obtain ⟨db, lt, pre⟩ := m
  rw [applyPreloads_eq]

theorem Model.First_call (m : Model) (ws : List Val) (e : Option EngErr) :
    (m.First ws e).2.2 = ⟨(m.applyPreloads).db, EngOp.firstE ws⟩ := by
  rcases e with _ | e
  · rfl
  · show (if e.isRecordNotFound then _ else _ : TermResult).2.2 = _
    split <;> rfl

theorem Model.Last_call (m : Model) (ws : List Val) (e : Option EngErr) :
    (m.Last ws e).2.2 = ⟨(m.applyPreloads).db, EngOp.lastE ws⟩ := by
  rcases e with _ | e
  · rfl
  · show (if e.isRecordNotFound then _ else _ : TermResult).2.2 = _
    split <;> rfl

theorem Model.Take_call (m : Model) (cs : List Val) (e : Option EngErr) :
    (m.Take cs e).2.2 = ⟨(m.applyPreloads).db, EngOp.takeE cs⟩ := by
  rcases e with _ | e
  · rfl
  · show (if e.isRecordNotFound then _ else _ : TermResult).2.2 = _
    split <;> rfl

theorem Model.Find_call (m : Model) (ws : List Val) (e : Option EngErr) :
    (m.Find ws e).2.2 = ⟨(m.applyPreloads).db, EngOp.findE ws⟩ := by
  rcases e with _ | e <;> rfl

theorem Model.Pluck_call (m : Model) (c : String) (e : Option EngErr) :
    (m.Pluck c e).2.2 = ⟨(m.applyPreloads).db, EngOp.pluckE c⟩ := by
  rcases e with _ | e <;> rfl

theorem Model.Scan_call (m : Model) (e : Option EngErr) :
    (m.Scan e).2.2 = ⟨(m.applyPreloads).db, EngOp.scanE⟩ := by
  rcases e with _ | e <;> rfl

theorem Model.Create_call (m : Model) (v : Val) (e : Option EngErr) :
    (m.Create v e).2.2 = ⟨(m.applyPreloads).db, EngOp.createE v⟩ := by
  rcases e with _ | e <;> rfl

theorem Model.Save_call (m : Model) (v : Val) (e : Option EngErr) :
    (m.Save v e).2.2 = ⟨(m.applyPreloads).db, EngOp.saveE v⟩ := by
  rcases e with _ | e <;> rfl

theorem Model.Updates_call (m : Model) (a : Val) (e : Option EngErr) :
    (m.Updates a e).2.2 = ⟨(m.applyPreloads).db, EngOp.updatesE a⟩ := by
  rcases e with _ | e <;> rfl

theorem Model.Delete_call (m : Model) (v : Val) (ws : List Val)
    (e : Option EngErr) :
    (m.Delete v ws e).2.2 = ⟨(m.applyPreloads).db, EngOp.deleteE v ws⟩ := by
  rcases e with _ | e <;> rfl

theorem Model.Count_call (m : Model) (c : Int) (e : Option EngErr) :
    (m.Count c e).2.2 = ⟨m.db, EngOp.countE⟩ := by
  rcases e with _ | e <;> rfl

theorem Model.exec_call (m : Model) (s : String) (vs : List Val)
    (e : Option EngErr) :
    (m.exec s vs e).2.2 = ⟨(m.applyPreloads).db, EngOp.execE s vs⟩ := by
  rcases e with _ | e <;> rfl

theorem Model.BatchFind_call (m : Model) (b : Int) (e : Option EngErr) :
    (m.BatchFind b e).2.2 = ⟨(m.applyPreloads).db, EngOp.findInBatchesE b⟩ := by
  rcases e with _ | e <;> rfl

theorem Model.UpdateByFilter_call (m : Model) (f v : Val) (e : Option EngErr)
    (hz : f.isZero = false) :
    (m.UpdateByFilter f v e).2.2 =
      some ⟨(m.applyPreloads).db ++ [DBOp.modelOp f, DBOp.whereOp f []],
            EngOp.updatesE v⟩ := by
  rw [Model.UpdateByFilter]
  rcases e with _ | e <;> simp [hz]

/-- C6: applying the preload deferral queue returns a facade whose preload
queue is empty and whose trace mapping equals the input facade's; when the
queue is already empty the operation is a no-op (the returned facade equals
the input, engine handle untouched).  `applyPreloads` neither logs nor
errors: its embedding — like the source — produces no log statement and no
error value at all. -/
theorem C6_applyPreloads_drains_queue (m : Model) :
    (m.applyPreloads).preloads = [] ∧
    (m.applyPreloads).logTrace = m.logTrace ∧
    (m.preloads = [] → m.applyPreloads = m) := by
  refine ⟨m.applyPreloads_preloads, m.applyPreloads_logTrace, fun hp => ?_⟩
  obtain ⟨db, lt, pre⟩ := m
  simp only at hp
  subst hp
  rw [applyPreloads_eq]
  simp [preloadOps]

/-- C6 witness: on a facade with an empty queue, `applyPreloads` is the
identity. -/
theorem C6_applyPreloads_drains_queue_witness :
    (Model.mk [DBOp.limitOp 5] (some 0) []).applyPreloads =
      Model.mk [DBOp.limitOp 5] (some 0) [] :=
  (C6_applyPreloads_drains_queue ⟨[DBOp.limitOp 5], some 0, []⟩).2.2 rfl

/-- C7: `RollbackWithError err` returns exactly the original `err` — nil or
not — whatever the rollback outcome; a rollback failure only adds one error
log, it is never returned in place of `err`. -/
theorem C7_rollbackWithError_returns_original (m : Model)
    (e rbErr : Option EngErr) :
    (m.RollbackWithError e rbErr).1 = e ∧
    (m.RollbackWithError e rbErr).2 =
      (match rbErr with
       | none => []
       | some _ => ["can't rollback transaction"]) := by
  rcases rbErr with _ | x <;> exact ⟨rfl, rfl⟩

/-- C8: the void `RollBack` logs nothing when the underlying rollback
succeeds or fails with (a possibly wrapped) `sql.ErrTxDone`, and logs
exactly one error entry on any other rollback failure; it returns no error
in any case (its embedding — like the void source — returns only the log
list). -/
theorem C8_rollback_logging (m : Model) (rbErr : Option EngErr) :
    ((m.RollBack rbErr = []) ↔
      rbErr = none ∨ ∃ x, rbErr = some x ∧ x.isTxDone = true) ∧
    (∀ x, rbErr = some x → x.isTxDone = false →
      (m.RollBack rbErr).length = 1) := by
  rcases rbErr with _ | x
  · exact ⟨⟨fun _ => Or.inl rfl, fun _ => rfl⟩, by intro x hx; cases hx⟩
  · constructor
    · constructor
      · intro hlog
        refine Or.inr ⟨x, rfl, ?_⟩
        by_contra hx
        rw [Bool.not_eq_true] at hx
        simp [Model.RollBack, hx] at hlog
      · rintro (h | ⟨y, hy, ht⟩)
        · cases h
        · cases hy
          simp [Model.RollBack, ht]
    · intro y hy hf
      cases hy
      simp [Model.RollBack, hf]

/-- C8 witness: rollback after `sql.ErrTxDone` logs nothing; a genuine
rollback failure logs exactly one entry. -/
theorem C8_rollback_logging_witness :
    ((Model.mk [] none []).RollBack (some EngErr.txDone) = []) ∧
    (((Model.mk [] none []).RollBack (some (EngErr.other 3))).length = 1) :=
  ⟨(C8_rollback_logging ⟨[], none, []⟩ (some EngErr.txDone)).1.mpr
      (Or.inr ⟨EngErr.txDone, rfl, rfl⟩),
   (C8_rollback_logging ⟨[], none, []⟩ (some (EngErr.other 3))).2
      (EngErr.other 3) rfl rfl⟩

/-- C5: `UpdateByFilter` with a zero-value filter logs one error and
returns `ErrInternal` without any engine call (for every engine outcome
`e`); with a non-zero filter the guard passes and the engine update —
`Model(filter).Where(filter).Updates(values)` on the preload-applied
handle — is invoked. -/
theorem C5_updateByFilter_zero_guard (m : Model) (f v : Val)
    (e : Option EngErr) :
    (f.isZero = true →
      m.UpdateByFilter f v e =
        (some .errInternal,
         ["queryBuilder.UpdateByFilter called for empty filter"], none)) ∧
    (f.isZero = false →
      (m.UpdateByFilter f v e).2.2 =
        some ⟨(m.applyPreloads).db ++ [DBOp.modelOp f, DBOp.whereOp f []],
              EngOp.updatesE v⟩) := by
  constructor
  · intro hz
    rw [Model.UpdateByFilter]
    simp [hz]
  · intro hz
    exact m.UpdateByFilter_call f v e hz

/-- C5 witness: a zero struct filter is rejected with no engine call; a
non-zero struct filter reaches the engine update. -/
theorem C5_updateByFilter_zero_guard_witness :
    ((Model.mk [] none []).UpdateByFilter (Val.record [("ID", Val.int 0)])
        (Val.int 7) none =
      (some .errInternal,
       ["queryBuilder.UpdateByFilter called for empty filter"], none)) ∧
    (((Model.mk [] none []).UpdateByFilter (Val.record [("ID", Val.int 1)])
        (Val.int 7) none).2.2 =
      some ⟨[DBOp.modelOp (Val.record [("ID", Val.int 1)]),
             DBOp.whereOp (Val.record [("ID", Val.int 1)]) []],
            EngOp.updatesE (Val.int 7)⟩) :=
  by
  constructor
  · exact (C5_updateByFilter_zero_guard ⟨[], none, []⟩
      (Val.record [("ID", Val.int 0)]) (Val.int 7) none).1 (by decide)
  · have h2 := (C5_updateByFilter_zero_guard ⟨[], none, []⟩
      (Val.record [("ID", Val.int 1)]) (Val.int 7) none).2 (by decide)
    rw [h2, Model.applyPreloads_db]
    rfl

/-- C10: `Joins` hands its variadic arguments to the engine as a single
slice value — the engine receives ONE argument, `Val.list args` — unlike
`Where`, `Select`, `Not` and `Having`, whose spread variadics reach the
engine as the individual elements of `args`. -/
theorem C10_joins_args_not_spread (m : Model) (h : Heap) (qj : String)
    (q : Val) (args : List Val) :
    ((m.Joins qj args h).1.db = m.db ++ [DBOp.joinsOp qj [Val.list args]]) ∧
    ([Val.list args].length = 1) ∧
    ((m.Where q args h).1.db = m.db ++ [DBOp.whereOp q args]) ∧
    ((m.Select q args h).1.db = m.db ++ [DBOp.selectOp q args]) ∧
    ((m.Not q args h).1.db = m.db ++ [DBOp.notOp q args]) ∧
    ((m.Having q args h).1.db = m.db ++ [DBOp.havingOp q args]) := by
  obtain ⟨db, lt, pre⟩ := m
  cases lt <;>
    simp [Model.Joins, Model.Where, Model.Select, Model.Not, Model.Having,
      initLogTrace, Heap.alloc]

/-- C1 counterexample: on a facade with one pending preload directive,
`Count` invokes the engine on the raw handle — its engine call carries no
preload clause, although draining the queue would have appended one.  The
claim's "every terminal operation applies every accumulated preload before
invoking the engine" is therefore false for `Count`. -/
theorem C1_count_skips_preloads_counterexample :
    ((Model.mk [] none [⟨"Owner", []⟩]).Count 5 none).2.2.db = [] ∧
    ((Model.mk [] none [⟨"Owner", []⟩]).applyPreloads).db =
      [DBOp.preloadOp "Owner" []] ∧
    ¬ ((Model.mk [] none [⟨"Owner", []⟩]).Count 5 none).2.2.db =
        ((Model.mk [] none [⟨"Owner", []⟩]).applyPreloads).db := by
  have hap : ((Model.mk [] none [⟨"Owner", []⟩]).applyPreloads).db =
      [DBOp.preloadOp "Owner" []] := by
    rw [Model.applyPreloads_db]; rfl
  refine ⟨rfl, hap, ?_⟩
  rw [hap]
  simp [Model.Count]

/-- C1 amended: every terminal operation EXCEPT `Count` first applies the
accumulated preload directives to the engine handle, in insertion (FIFO)
order, before invoking the engine operation; `Count` alone invokes the
engine on the handle as-is, with the pending preloads ignored. -/
theorem C1_terminal_ops_apply_preloads (m : Model) (col sq : String)
    (ws cs vs : List Val) (v a : Val) (bs c : Int) (e : Option EngErr) :
    ((m.Pluck col e).2.2.db = m.db ++ preloadOps m.preloads) ∧
    ((m.First ws e).2.2.db = m.db ++ preloadOps m.preloads) ∧
    ((m.Last ws e).2.2.db = m.db ++ preloadOps m.preloads) ∧
    ((m.Take cs e).2.2.db = m.db ++ preloadOps m.preloads) ∧
    ((m.Find ws e).2.2.db = m.db ++ preloadOps m.preloads) ∧
    ((m.Scan e).2.2.db = m.db ++ preloadOps m.preloads) ∧
    ((m.Create v e).2.2.db = m.db ++ preloadOps m.preloads) ∧
    ((m.Save v e).2.2.db = m.db ++ preloadOps m.preloads) ∧
    ((m.Updates a e).2.2.db = m.db ++ preloadOps m.preloads) ∧
    ((m.Delete v ws e).2.2.db = m.db ++ preloadOps m.preloads) ∧
    ((m.exec sq vs e).2.2.db = m.db ++ preloadOps m.preloads) ∧
    ((m.BatchFind bs e).2.2.db = m.db ++ preloadOps m.preloads) ∧
    (∀ f, f.isZero = false →
      (m.UpdateByFilter f v e).2.2 =
        some ⟨m.db ++ preloadOps m.preloads ++
                [DBOp.modelOp f, DBOp.whereOp f []],
              EngOp.updatesE v⟩) ∧
    ((m.Count c e).2.2.db = m.db) := by
  refine ⟨?_, ?_, ?_, ?_, ?_, ?_, ?_, ?_, ?_, ?_, ?_, ?_, ?_, ?_⟩
  · rw [Model.Pluck_call]; exact m.applyPreloads_db
  · rw [Model.First_call]; exact m.applyPreloads_db
  · rw [Model.Last_call]; exact m.applyPreloads_db
  · rw [Model.Take_call]; exact m.applyPreloads_db
  · rw [Model.Find_call]; exact m.applyPreloads_db
  · rw [Model.Scan_call]; exact m.applyPreloads_db
  · rw [Model.Create_call]; exact m.applyPreloads_db
  · rw [Model.Save_call]; exact m.applyPreloads_db
  · rw [Model.Updates_call]; exact m.applyPreloads_db
  · rw [Model.Delete_call]; exact m.applyPreloads_db
  · rw [Model.exec_call]; exact m.applyPreloads_db
  · rw [Model.BatchFind_call]; exact m.applyPreloads_db
  · intro f hz
    rw [Model.UpdateByFilter_call m f v e hz, Model.applyPreloads_db]
  · rw [Model.Count_call]

/-- C1 amended witness: a facade with two pending preloads; `First` fires
with both preload clauses appended in directive order, and a non-zero
`UpdateByFilter` likewise. -/
theorem C1_terminal_ops_apply_preloads_witness :
    (((Model.mk [DBOp.limitOp 1] none
        [⟨"A", []⟩, ⟨"B", [Val.int 2]⟩]).First [] none).2.2.db =
      [DBOp.limitOp 1, DBOp.preloadOp "A" [],
       DBOp.preloadOp "B" [Val.int 2]]) ∧
    (((Model.mk [DBOp.limitOp 1] none
        [⟨"A", []⟩, ⟨"B", [Val.int 2]⟩]).UpdateByFilter (Val.int 3)
          (Val.int 4) none).2.2 =
      some ⟨[DBOp.limitOp 1, DBOp.preloadOp "A" [],
             DBOp.preloadOp "B" [Val.int 2], DBOp.modelOp (Val.int 3),
             DBOp.whereOp (Val.int 3) []],
            EngOp.updatesE (Val.int 4)⟩) := by
  have hthm := C1_terminal_ops_apply_preloads
    ⟨[DBOp.limitOp 1], none, [⟨"A", []⟩, ⟨"B", [Val.int 2]⟩]⟩
    "" "" [] [] [] (Val.int 4) (Val.int 4) 0 0 none
  exact ⟨hthm.2.1,
    hthm.2.2.2.2.2.2.2.2.2.2.2.2.1 (Val.int 3) (by decide)⟩

/-- C3 counterexample: `Find` has no record-not-found branch — when the
engine reports `gorm.ErrRecordNotFound`, `Find` logs one error entry and
returns `ErrInternal`, not the `ErrNotFound` sentinel the claim requires of
"every terminal operation". -/
theorem C3_find_notfound_counterexample :
    (((Model.mk [] none []).Find []
        (some EngErr.recordNotFound)).1 = some CommonErr.errInternal) ∧
    (((Model.mk [] none []).Find []
        (some EngErr.recordNotFound)).2.1 = ["can't find from the database"]) ∧
    ¬ (((Model.mk [] none []).Find []
        (some EngErr.recordNotFound)).1 = some CommonErr.errNotFound) := by
  refine ⟨rfl, rfl, by decide⟩

/-- C3 amended: on a nil engine error every terminal operation returns nil
with no log; the not-found classification exists only in the singular
fetches `First`, `Last` and `Take`, which return `ErrNotFound` unlogged on a
(possibly wrapped) `gorm.ErrRecordNotFound` and `ErrInternal` after one
error log otherwise; every other terminal operation returns `ErrInternal`
after exactly one error log for EVERY non-nil engine error, record-not-found
included. -/
theorem C3_error_classification (m : Model) (col sq : String)
    (ws cs vs : List Val) (v a : Val) (bs c : Int) :
    (((m.Pluck col none).1 = none ∧ (m.Pluck col none).2.1 = []) ∧
     ((m.First ws none).1 = none ∧ (m.First ws none).2.1 = []) ∧
     ((m.Last ws none).1 = none ∧ (m.Last ws none).2.1 = []) ∧
     ((m.Take cs none).1 = none ∧ (m.Take cs none).2.1 = []) ∧
     ((m.Find ws none).1 = none ∧ (m.Find ws none).2.1 = []) ∧
     ((m.Scan none).1 = none ∧ (m.Scan none).2.1 = []) ∧
     ((m.Create v none).1 = none ∧ (m.Create v none).2.1 = []) ∧
     ((m.Save v none).1 = none ∧ (m.Save v none).2.1 = []) ∧
     ((m.Updates a none).1 = none ∧ (m.Updates a none).2.1 = []) ∧
     ((m.Delete v ws none).1 = none ∧ (m.Delete v ws none).2.1 = []) ∧
     ((m.exec sq vs none).1 = none ∧ (m.exec sq vs none).2.1 = []) ∧
     ((m.BatchFind bs none).1 = none ∧ (m.BatchFind bs none).2.1 = []) ∧
     ((m.Count c none).1.2 = none ∧ (m.Count c none).2.1 = [])) ∧
    (∀ e : EngErr, e.isRecordNotFound = true →
      ((m.First ws (some e)).1 = some CommonErr.errNotFound ∧
       (m.First ws (some e)).2.1 = []) ∧
      ((m.Last ws (some e)).1 = some CommonErr.errNotFound ∧
       (m.Last ws (some e)).2.1 = []) ∧
      ((m.Take cs (some e)).1 = some CommonErr.errNotFound ∧
       (m.Take cs (some e)).2.1 = [])) ∧
    (∀ e : EngErr, e.isRecordNotFound = false →
      ((m.First ws (some e)).1 = some CommonErr.errInternal ∧
       (m.First ws (some e)).2.1.length = 1) ∧
      ((m.Last ws (some e)).1 = some CommonErr.errInternal ∧
       (m.Last ws (some e)).2.1.length = 1) ∧
      ((m.Take cs (some e)).1 = some CommonErr.errInternal ∧
       (m.Take cs (some e)).2.1.length = 1)) ∧
    (∀ e : EngErr,
      ((m.Pluck col (some e)).1 = some CommonErr.errInternal ∧
       (m.Pluck col (some e)).2.1.length = 1) ∧
      ((m.Find ws (some e)).1 = some CommonErr.errInternal ∧
       (m.Find ws (some e)).2.1.length = 1) ∧
      ((m.Scan (some e)).1 = some CommonErr.errInternal ∧
       (m.Scan (some e)).2.1.length = 1) ∧
      ((m.Create v (some e)).1 = some CommonErr.errInternal ∧
       (m.Create v (some e)).2.1.length = 1) ∧
      ((m.Save v (some e)).1 = some CommonErr.errInternal ∧
       (m.Save v (some e)).2.1.length = 1) ∧
      ((m.Updates a (some e)).1 = some CommonErr.errInternal ∧
       (m.Updates a (some e)).2.1.length = 1) ∧
      ((m.Delete v ws (some e)).1 = some CommonErr.errInternal ∧
       (m.Delete v ws (some e)).2.1.length = 1) ∧
      ((m.exec sq vs (some e)).1 = some CommonErr.errInternal ∧
       (m.exec sq vs (some e)).2.1.length = 1) ∧
      ((m.BatchFind bs (some e)).1 = some CommonErr.errInternal ∧
       (m.BatchFind bs (some e)).2.1.length = 1) ∧
      ((m.Count c (some e)).1.2 = some CommonErr.errInternal ∧
       (m.Count c (some e)).2.1.length = 1) ∧
      (∀ f, f.isZero = false →
        (m.UpdateByFilter f v (some e)).1 = some CommonErr.errInternal ∧
        (m.UpdateByFilter f v (some e)).2.1.length = 1)) := by
  refine ⟨?_, ?_, ?_, ?_⟩
  · exact ⟨⟨rfl, rfl⟩, ⟨rfl, rfl⟩, ⟨rfl, rfl⟩, ⟨rfl, rfl⟩, ⟨rfl, rfl⟩,
      ⟨rfl, rfl⟩, ⟨rfl, rfl⟩, ⟨rfl, rfl⟩, ⟨rfl, rfl⟩, ⟨rfl, rfl⟩,
      ⟨rfl, rfl⟩, ⟨rfl, rfl⟩, ⟨rfl, rfl⟩⟩
  · intro e he
    refine ⟨⟨?_, ?_⟩, ⟨?_, ?_⟩, ⟨?_, ?_⟩⟩ <;>
      simp [Model.First, Model.Last, Model.Take, he]
  · intro e he
    refine ⟨⟨?_, ?_⟩, ⟨?_, ?_⟩, ⟨?_, ?_⟩⟩ <;>
      simp [Model.First, Model.Last, Model.Take, he]
  · intro e
    refine ⟨⟨rfl, rfl⟩, ⟨rfl, rfl⟩, ⟨rfl, rfl⟩, ⟨rfl, rfl⟩, ⟨rfl, rfl⟩,
      ⟨rfl, rfl⟩, ⟨rfl, rfl⟩, ⟨rfl, rfl⟩, ⟨rfl, rfl⟩, ⟨rfl, rfl⟩, ?_⟩
    intro f hz
    rw [Model.UpdateByFilter]
    simp [hz]

/-- C3 amended witness: a wrapped record-not-found maps to `ErrNotFound`
unlogged on `First`; a plain engine failure maps to `ErrInternal` with one
log on `First`; `UpdateByFilter` with a non-zero filter maps any engine
failure to `ErrInternal` with one log. -/
theorem C3_error_classification_witness :
    (((Model.mk [] none []).First []
        (some (EngErr.wrapped EngErr.recordNotFound))).1 =
      some CommonErr.errNotFound) ∧
    (((Model.mk [] none []).First []
        (some (EngErr.wrapped EngErr.recordNotFound))).2.1 = []) ∧
    (((Model.mk [] none []).First [] (some (EngErr.other 7))).1 =
      some CommonErr.errInternal) ∧
    (((Model.mk [] none []).First []
        (some (EngErr.other 7))).2.1.length = 1) ∧
    (((Model.mk [] none []).UpdateByFilter (Val.int 1) (Val.int 2)
        (some (EngErr.other 7))).1 = some CommonErr.errInternal) := by
  have hthm := C3_error_classification ⟨[], none, []⟩ "" "" [] [] []
    (Val.int 2) (Val.int 2) 0 0
  refine ⟨(hthm.2.1 _ (by decide)).1.1, (hthm.2.1 _ (by decide)).1.2,
    (hthm.2.2.1 _ (by decide)).1.1, (hthm.2.2.1 _ (by decide)).1.2, ?_⟩
  exact (hthm.2.2.2 (EngErr.other 7)).2.2.2.2.2.2.2.2.2.2
    (Val.int 1) (by decide) |>.1

theorem Fields.lookupF_map_update (f : Fields) (k : String) (v : Val)
    (hk : Fields.hasKey f k = true) :
    Fields.lookupF (List.map (fun p => if p.1 = k then (k, v) else p) f) k =
      some v := by
  induction f with
  | nil => simp [Fields.hasKey] at hk
  | cons p f ih =>
    by_cases hpk : p.1 = k
    · simp [Fields.lookupF, hpk]
    · have hk' : Fields.hasKey f k = true := by
        rw [Fields.hasKey, List.any_cons, Bool.or_eq_true] at hk
        rcases hk with h | h
        · exact absurd (of_decide_eq_true h) hpk
        · exact h
      simpa [Fields.lookupF, hpk] using ih hk'

theorem Fields.lookupF_map_update_ne (f : Fields) (k k' : String) (v : Val)
    (hne : ¬ k' = k) :
    Fields.lookupF (List.map (fun p => if p.1 = k then (k, v) else p) f) k' =
      Fields.lookupF f k' := by
  induction f with
  | nil => rfl
  | cons p f ih =>
    by_cases hpk : p.1 = k
    · have hpk' : ¬ p.1 = k' := by
        rw [hpk]; exact fun hh => hne hh.symm
      have hkk' : ¬ k = k' := fun hh => hne hh.symm
      simp [Fields.lookupF, hpk, hpk', hkk'] at ih ⊢
      exact ih
    · by_cases hpk' : p.1 = k'
      · simp [Fields.lookupF, hpk, hpk', hne]
      · simp [Fields.lookupF, hpk, hpk'] at ih ⊢
        exact ih

theorem Fields.lookupF_append_single (f : Fields) (k : String) (v : Val)
    (hk : Fields.hasKey f k = false) :
    Fields.lookupF (f ++ [(k, v)]) k = some v := by
  induction f with
  | nil => simp [Fields.lookupF]
  | cons p f ih =>
    rw [Fields.hasKey, List.any_cons] at hk
    have h1 : ¬ p.1 = k := by
      intro hh
      simp [hh] at hk
    have h2 : Fields.hasKey f k = false := by
      rw [Fields.hasKey]
      by_contra hcon
      simp [Bool.of_not_eq_false hcon] at hk
    simpa [Fields.lookupF, h1] using ih h2

theorem Fields.lookupF_append_single_ne (f : Fields) (k k' : String) (v : Val)
    (hne : ¬ k' = k) :
    Fields.lookupF (f ++ [(k, v)]) k' = Fields.lookupF f k' := by
  induction f with
  | nil =>
    have hkk' : ¬ k = k' := fun hh => hne hh.symm
    simp [Fields.lookupF, hkk']
  | cons p f ih =>
    by_cases hpk' : p.1 = k'
    · simp [Fields.lookupF, hpk']
    · simp [Fields.lookupF, hpk'] at ih ⊢
      exact ih

theorem Fields.lookupF_insertF_self (f : Fields) (k : String) (v : Val) :
    Fields.lookupF (Fields.insertF f k v) k = some v := by
  rw [Fields.insertF]
  split
  · exact Fields.lookupF_map_update f k v (by assumption)
  · rename_i hcond
    exact Fields.lookupF_append_single f k v (Bool.eq_false_iff.mpr hcond)

theorem Fields.lookupF_insertF_ne (f : Fields) (k k' : String) (v : Val)
    (hne : ¬ k' = k) :
    Fields.lookupF (Fields.insertF f k v) k' = Fields.lookupF f k' := by
  rw [Fields.insertF]
  split
  · exact Fields.lookupF_map_update_ne f k k' v hne
  · exact Fields.lookupF_append_single_ne f k k' v hne

theorem Fields.lookupF_eq_none_of_hasKey_false (f : Fields) (k : String)
    (hk : Fields.hasKey f k = false) :
    Fields.lookupF f k = none := by
  induction f with
  | nil => rfl
  | cons p f ih =>
    rw [Fields.hasKey, List.any_cons] at hk
    have h1 : ¬ p.1 = k := by
      intro hh
      simp [hh] at hk
    have h2 : Fields.hasKey f k = false := by
      rw [Fields.hasKey]
      by_contra hcon
      simp [Bool.of_not_eq_false hcon] at hk
    simpa [Fields.lookupF, h1] using ih h2

theorem Heap.get_setH_self (h : Heap) (r : MapRef) (f : Fields)
    (hr : r < h.maps.length) :
    (h.setH r f).get r = f := by
  rw [Heap.setH, Heap.get]
  simp [List.getD_eq_getElem?_getD, List.getElem?_set_eq_of_lt f hr]

theorem Heap.get_alloc_fresh (h : Heap) :
    (h.alloc.2).get h.alloc.1 = [] := by
  rw [Heap.alloc, Heap.get]
  simp [List.getD_eq_getElem?_getD]

theorem Heap.alloc_length (h : Heap) :
    (h.alloc.2).maps.length = h.maps.length + 1 := by
  simp [Heap.alloc]

theorem Heap.setH_length (h : Heap) (r : MapRef) (f : Fields) :
    (h.setH r f).maps.length = h.maps.length := by
  simp [Heap.setH]

/-- Concrete chain for C2: a fresh facade, one `Where` call producing
facade A (trace map allocated at reference 0). -/
def c2Start : Model × Heap :=
  (Model.mk [] none []).Where (Val.str "q") [] ⟨[]⟩

/-- First facade derived from A. -/
def c2Sibling1 : Model × Heap :=
  c2Start.1.Select (Val.str "s") [] c2Start.2

/-- Second facade derived independently from the SAME A (heap threaded). -/
def c2Sibling2 : Model × Heap :=
  c2Start.1.Joins "j" [] c2Sibling1.2

/-- C2 counterexample: configuration calls DO mutate their receiver's trace
mapping.  Facade A (`c2Start.1`) holds the map at reference 0 with one
entry; deriving `Select` from A grows that very map to two entries — A's
observable trace mapping changed — and a second facade derived from the
same A shares the same reference, so each sibling observes the other's
entries (the final map holds A's, sibling 1's and sibling 2's keys
together). -/
theorem C2_trace_mutation_counterexample :
    (c2Start.1.logTrace = some 0) ∧
    (c2Start.2.get 0 = [("whereQuery0", Val.str "q")]) ∧
    (c2Sibling1.2.get 0 =
      [("whereQuery0", Val.str "q"), ("selectQuery", Val.str "s")]) ∧
    ((c2Start.2.get 0).length = 1 ∧ (c2Sibling1.2.get 0).length = 2) ∧
    (c2Sibling1.1.logTrace = c2Start.1.logTrace) ∧
    (c2Sibling2.1.logTrace = c2Sibling1.1.logTrace) ∧
    (c2Sibling2.2.get 0 =
      [("whereQuery0", Val.str "q"), ("selectQuery", Val.str "s"),
       ("joinsQuery0", Val.str "j")]) :=
  ⟨rfl, rfl, rfl, ⟨rfl, rfl⟩, rfl, rfl, rfl⟩

/-- C2 amended: a configuration call never touches the parent's engine
handle or preload queue (the derived facade appends to copies), but the
trace mapping is shared BY REFERENCE: every configuration method on a
facade with a non-nil trace keeps the parent's map reference and inserts
its entries into that same map in place (e.g. after `Select`, the cell the
parent references answers `selectQuery`), so the parent and any sibling
derived from it observe each other's trace entries.  Only when the parent's
trace is nil does each derived facade allocate a fresh, distinct map. -/
theorem C2_config_calls_share_trace_map (m : Model) (h : Heap) (q v : Val)
    (args : List Val) (col nm : String) (n : Int) :
    ((m.Where q args h).1.preloads = m.preloads ∧
     (m.Where q args h).1.db = m.db ++ [DBOp.whereOp q args] ∧
     (m.Select q args h).1.preloads = m.preloads ∧
     (m.Select q args h).1.db = m.db ++ [DBOp.selectOp q args] ∧
     (m.Preload col args h).1.preloads = m.preloads ++ [⟨col, args⟩] ∧
     (m.Preload col args h).1.db = m.db) ∧
    (∀ r, m.logTrace = some r →
      (m.Preload col args h).1.logTrace = some r ∧
      (m.Unscoped h).1.logTrace = some r ∧
      (m.Select q args h).1.logTrace = some r ∧
      (m.Limit n h).1.logTrace = some r ∧
      (m.Offset n h).1.logTrace = some r ∧
      (m.Order q h).1.logTrace = some r ∧
      (m.Joins nm args h).1.logTrace = some r ∧
      (m.Set nm v h).1.logTrace = some r ∧
      (m.Where q args h).1.logTrace = some r ∧
      (m.Not q args h).1.logTrace = some r ∧
      (m.Group nm h).1.logTrace = some r ∧
      (m.Having q args h).1.logTrace = some r ∧
      (m.Omit [nm] h).1.logTrace = some r) ∧
    (∀ r, m.logTrace = some r → r < h.maps.length →
      Fields.hasKey (h.get r) "selectQuery" = false →
      Fields.lookupF (h.get r) "selectQuery" = none ∧
      Fields.lookupF ((m.Select q args h).2.get r) "selectQuery" = some q) ∧
    (m.logTrace = none →
      (m.Where q args h).1.logTrace = some h.maps.length ∧
      (m.Select q args ((m.Where q args h).2)).1.logTrace =
        some (h.maps.length + 1) ∧
      ¬ h.maps.length = h.maps.length + 1) := by
  refine ⟨?_, ?_, ?_, ?_⟩
  · rcases hm : m.logTrace with _ | r <;>
      simp [Model.Where, Model.Select, Model.Preload, initLogTrace, hm]
  · intro r hr
    refine ⟨?_, ?_, ?_, ?_, ?_, ?_, ?_, ?_, ?_, ?_, ?_, ?_, ?_⟩ <;>
      simp [Model.Preload, Model.Unscoped, Model.Select, Model.Limit,
        Model.Offset, Model.Order, Model.Joins, Model.Set, Model.Where,
        Model.Not, Model.Group, Model.Having, Model.Omit, initLogTrace, hr]
  · intro r hr hlt hkey
    refine ⟨Fields.lookupF_eq_none_of_hasKey_false _ _ hkey, ?_⟩
    rw [Model.Select]
    simp only [hr, initLogTrace]
    by_cases hargs : args.length > 0
    · simp only [hargs, if_pos]
      rw [Heap.get_setH_self _ _ _ hlt]
      rw [Fields.lookupF_insertF_ne _ _ _ _ (by decide)]
      exact Fields.lookupF_insertF_self _ _ _
    · simp only [hargs, if_neg, Bool.false_eq_true, not_false_eq_true]
      rw [Heap.get_setH_self _ _ _ hlt]
      exact Fields.lookupF_insertF_self _ _ _
  · intro hnone
    refine ⟨?_, ?_, by omega⟩
    · simp [Model.Where, initLogTrace, hnone, Heap.alloc]
    · simp [Model.Select, Model.Where, initLogTrace, hnone, Heap.alloc,
        Heap.setH]

/-- C2 amended witness: on a facade whose trace lives at reference 0 of a
one-map heap, `Select` keeps the reference and the referenced cell then
answers `selectQuery`; on a nil-trace facade over the empty heap, `Where`
allocates reference 0. -/
theorem C2_config_calls_share_trace_map_witness :
    (((Model.mk [] (some 0) []).Select (Val.str "s") []
        ⟨[[("limit", Val.int 1)]]⟩).1.logTrace = some 0) ∧
    (Fields.lookupF (((Model.mk [] (some 0) []).Select (Val.str "s") []
        ⟨[[("limit", Val.int 1)]]⟩).2.get 0) "selectQuery" =
      some (Val.str "s")) ∧
    (((Model.mk [] none []).Where (Val.str "w") [] ⟨[]⟩).1.logTrace =
      some 0) := by
  have h1 := C2_config_calls_share_trace_map ⟨[], some 0, []⟩
    ⟨[[("limit", Val.int 1)]]⟩ (Val.str "s") (Val.str "v") [] "c" "n" 1
  have h2 := C2_config_calls_share_trace_map ⟨[], none, []⟩ ⟨[]⟩
    (Val.str "s") (Val.str "v") [] "c" "n" 1
  exact ⟨(h1.2.1 0 rfl).2.2.1, (h1.2.2.1 0 rfl (by decide) (by decide)).2,
    (h2.2.2.2 rfl).1⟩

/-- Two same-kind `Select` calls chained on a fresh facade. -/
def chainSelect2 (q1 q2 : Val) : Model × Heap :=
  let s1 := (Model.mk [] none []).Select q1 [] ⟨[]⟩
  s1.1.Select q2 [] s1.2

/-- Two same-kind `Where` calls chained on a fresh facade. -/
def chainWhere2 (q1 q2 : Val) : Model × Heap :=
  let s1 := (Model.mk [] none []).Where q1 [] ⟨[]⟩
  s1.1.Where q2 [] s1.2

/-- Two same-kind `Joins` calls chained on a fresh facade. -/
def chainJoins2 (j1 j2 : String) : Model × Heap :=
  let s1 := (Model.mk [] none []).Joins j1 [] ⟨[]⟩
  s1.1.Joins j2 [] s1.2

/-- Two same-kind `Set` calls chained on a fresh facade. -/
def chainSet2 (n1 n2 : String) (v1 v2 : Val) : Model × Heap :=
  let s1 := (Model.mk [] none []).Set n1 v1 ⟨[]⟩
  s1.1.Set n2 v2 s1.2

/-- C4 counterexample: `Select` does NOT use a scanned integer suffix — its
trace key is the fixed `selectQuery` — so in a chain of two `Select` calls
the second silently overwrites the first: the final trace map has a single
entry holding the second query, and no entry anywhere holds the first. -/
theorem C4_select_overwrites_counterexample :
    ((chainSelect2 (Val.str "a") (Val.str "b")).2.get 0 =
      [("selectQuery", Val.str "b")]) ∧
    (((chainSelect2 (Val.str "a") (Val.str "b")).2.get 0).length = 1) ∧
    (∀ p ∈ (chainSelect2 (Val.str "a") (Val.str "b")).2.get 0,
      ¬ p.2 = Val.str "a") := by
  refine ⟨rfl, rfl, ?_⟩
  intro p hp
  rw [show (chainSelect2 (Val.str "a") (Val.str "b")).2.get 0 =
    [("selectQuery", Val.str "b")] from rfl] at hp
  simp only [List.mem_singleton] at hp
  subst hp
  intro hcon
  injection hcon with hs
  exact absurd hs (by decide)

/-- C4 amended: only `Where`, `Joins` and `Set` disambiguate their trace
keys with the first unused integer suffix found by scanning existing keys,
so two same-kind calls in one chain retain both entries under distinct
indexed keys (suffixes 0 and 1 from a fresh facade); `Select` — like the
other fixed-key configuration methods — reuses one constant key, and a
repeat invocation overwrites the earlier entry
(`C4_select_overwrites_counterexample`). -/
theorem C4_indexed_trace_keys (q1 q2 v1 v2 : Val) (j1 j2 n1 n2 : String) :
    (Fields.lookupF ((chainWhere2 q1 q2).2.get 0) "whereQuery0" =
      some (prettyP q1)) ∧
    (Fields.lookupF ((chainWhere2 q1 q2).2.get 0) "whereQuery1" =
      some (prettyP q2)) ∧
    (¬ ("whereQuery0" : String) = "whereQuery1") ∧
    (Fields.lookupF ((chainJoins2 j1 j2).2.get 0) "joinsQuery0" =
      some (Val.str j1)) ∧
    (Fields.lookupF ((chainJoins2 j1 j2).2.get 0) "joinsQuery1" =
      some (Val.str j2)) ∧
    (¬ ("joinsQuery0" : String) = "joinsQuery1") ∧
    (Fields.lookupF ((chainSet2 n1 n2 v1 v2).2.get 0) "setName0" =
      some (Val.str n1)) ∧
    (Fields.lookupF ((chainSet2 n1 n2 v1 v2).2.get 0) "setValue0" =
      some v1) ∧
    (Fields.lookupF ((chainSet2 n1 n2 v1 v2).2.get 0) "setName1" =
      some (Val.str n2)) ∧
    (Fields.lookupF ((chainSet2 n1 n2 v1 v2).2.get 0) "setValue1" =
      some v2) ∧
    (¬ ("setName0" : String) = "setName1") :=
  by
  have hw1 : (Model.mk [] none []).Where q1 [] ⟨[]⟩ =
      (⟨[DBOp.whereOp q1 []], some 0, []⟩,
       ⟨[[("whereQuery0", prettyP q1)]]⟩) := rfl
  have hw2 : (chainWhere2 q1 q2).2 =
      ⟨[[("whereQuery0", prettyP q1), ("whereQuery1", prettyP q2)]]⟩ := by
    simp only [chainWhere2]
    rw [hw1]
    simp only [Model.Where, initLogTrace]
    rw [show firstUnused
      (Heap.get ⟨[[("whereQuery0", prettyP q1)]]⟩ 0) "whereQuery" = 1 from rfl]
    rfl
  have hj1 : (Model.mk [] none []).Joins j1 [] ⟨[]⟩ =
      (⟨[DBOp.joinsOp j1 [Val.list []]], some 0, []⟩,
       ⟨[[("joinsQuery0", Val.str j1)]]⟩) := rfl
  have hj2 : (chainJoins2 j1 j2).2 =
      ⟨[[("joinsQuery0", Val.str j1), ("joinsQuery1", Val.str j2)]]⟩ := by
    simp only [chainJoins2]
    rw [hj1]
    simp only [Model.Joins, initLogTrace]
    rw [show firstUnused
      (Heap.get ⟨[[("joinsQuery0", Val.str j1)]]⟩ 0) "joinsQuery" = 1
      from rfl]
    rfl
  have hs1 : (Model.mk [] none []).Set n1 v1 ⟨[]⟩ =
      (⟨[DBOp.setOp n1 v1], some 0, []⟩,
       ⟨[[("setName0", Val.str n1), ("setValue0", v1)]]⟩) := rfl
  have hs2 : (chainSet2 n1 n2 v1 v2).2 =
      ⟨[[("setName0", Val.str n1), ("setValue0", v1),
         ("setName1", Val.str n2), ("setValue1", v2)]]⟩ := by
    simp only [chainSet2]
    rw [hs1]
    simp only [Model.Set, initLogTrace]
    rw [show firstUnused
      (Heap.get ⟨[[("setName0", Val.str n1), ("setValue0", v1)]]⟩ 0)
        "setName" = 1 from rfl]
    rfl
  refine ⟨?_, ?_, by decide, ?_, ?_, by decide, ?_, ?_, ?_, ?_, by decide⟩ <;>
    simp only [hw2, hj2, hs2] <;> rfl

theorem takeWhile_stop_aux {α : Type} (p : α → Bool) (l : List α) (x : α)
    (hx : l[(l.takeWhile p).length]? = some x) : p x = false := by
  induction l with
  | nil => simp at hx
  | cons a l ih =>
    by_cases hpa : p a = true
    · simp only [List.takeWhile_cons, hpa, if_true, List.length_cons,
        List.getElem?_cons_succ] at hx
      exact ih hx
    · have hfa : p a = false := Bool.eq_false_iff.mpr hpa
      simp only [List.takeWhile_cons, hfa, Bool.false_eq_true, if_false,
        List.length_nil, List.getElem?_cons_zero, Option.some.injEq] at hx
      rw [hx] at hfa
      exact hfa

theorem takeWhile_stop_false {α : Type} (p : α → Bool) (l : List α)
    (h : (l.takeWhile p).length < l.length) :
    p (l.get ⟨(l.takeWhile p).length, h⟩) = false := by
  apply takeWhile_stop_aux p l
  rw [List.getElem?_eq_getElem h]
  rfl

/-- Concrete call stack for C9, innermost frame first: the capture routine,
the collector itself, its direct caller in the logging path, one more
project frame, and the external entrypoint. -/
def c9Stack : List Frame :=
  [⟨"runtime.Callers", "callers.go", 1⟩,
   ⟨"myProject/common.GetFrames", "trace.go", 2⟩,
   ⟨"myProject/builder.(*Model).First", "builder.go", 3⟩,
   ⟨"myProject/model.GetUser", "user.go", 4⟩,
   ⟨"main.main", "main.go", 5⟩]

/-- C9 counterexample: the collector skips only the capture routine's frame
and its own frame (`runtime.Callers(2, ...)`), so its first returned frame
IS its direct caller in the logging path (`builder.First` here) — the claim
says that frame is skipped too ("two frames above itself"), which would
yield only the `model.GetUser` frame. -/
theorem C9_getframes_counterexample :
    (GetFrames c9Stack =
      [⟨"myProject/builder.(*Model).First", "builder.go", 3⟩,
       ⟨"myProject/model.GetUser", "user.go", 4⟩]) ∧
    (claimGetFrames c9Stack =
      [⟨"myProject/model.GetUser", "user.go", 4⟩]) ∧
    ¬ GetFrames c9Stack = claimGetFrames c9Stack := by
  refine ⟨rfl, rfl, ?_⟩
  intro hcon
  rw [show GetFrames c9Stack =
    [⟨"myProject/builder.(*Model).First", "builder.go", 3⟩,
     ⟨"myProject/model.GetUser", "user.go", 4⟩] from rfl] at hcon
  rw [show claimGetFrames c9Stack =
    [⟨"myProject/model.GetUser", "user.go", 4⟩] from rfl] at hcon
  have hlen := congrArg List.length hcon
  simp at hlen

/-- C9 amended: the collector starts ONE frame above itself — it skips
exactly the capture routine's frame and its own frame, and its first
candidate is its direct caller in the logging path.  From there (capped at
the 99-frame buffer) it returns the contiguous run of frames whose function
name contains the project namespace: every returned frame matches, the run
is a prefix of the frames above the collector, and the frame at which it
stops — when one exists within the buffer — does not match. -/
theorem C9_getframes_start (c g : Frame) (rest : List Frame) :
    (GetFrames (c :: g :: rest) =
      (rest.take 99).takeWhile (fun f => containsProject f.function)) ∧
    (∀ f ∈ GetFrames (c :: g :: rest), containsProject f.function = true) ∧
    (List.IsPrefix (GetFrames (c :: g :: rest)) rest) ∧
    (∀ x, (rest.take 99)[(GetFrames (c :: g :: rest)).length]? = some x →
      containsProject x.function = false) := by
  have heq : GetFrames (c :: g :: rest) =
      (rest.take 99).takeWhile (fun f => containsProject f.function) := rfl
  refine ⟨heq, ?_, ?_, ?_⟩
  · intro f hf
    rw [heq] at hf
    exact List.mem_takeWhile_imp (l := rest.take 99) hf
  · rw [heq]
    exact (List.takeWhile_prefix _).trans (List.take_prefix 99 rest)
  · intro x hx
    rw [heq] at hx
    exact takeWhile_stop_aux (fun fr => containsProject fr.function)
      (rest.take 99) x hx

/-- C9 amended witness: on the concrete stack, the returned frames are the
direct caller and its caller (both in the project namespace), they form a
prefix of the frames above the collector, and the stopping frame
(`main.main`) fails the namespace test. -/
theorem C9_getframes_start_witness :
    (containsProject "myProject/builder.(*Model).First" = true) ∧
    (List.IsPrefix (GetFrames c9Stack)
      [⟨"myProject/builder.(*Model).First", "builder.go", 3⟩,
       ⟨"myProject/model.GetUser", "user.go", 4⟩, ⟨"main.main", "main.go", 5⟩]) ∧
    (containsProject "main.main" = false) := by
  have hthm := C9_getframes_start ⟨"runtime.Callers", "callers.go", 1⟩
    ⟨"myProject/common.GetFrames", "trace.go", 2⟩
    [⟨"myProject/builder.(*Model).First", "builder.go", 3⟩,
     ⟨"myProject/model.GetUser", "user.go", 4⟩, ⟨"main.main", "main.go", 5⟩]
  refine ⟨?_, hthm.2.2.1, ?_⟩
  · exact hthm.2.1 ⟨"myProject/builder.(*Model).First", "builder.go", 3⟩
      (by decide)
  · exact hthm.2.2.2 ⟨"main.main", "main.go", 5⟩ (by decide)
